import Mathlib

/-!
# The `cycleTree` and `typeahead` directives of `assets/js/directives.js`

A shallow embedding of the two link functions.  Everything the directives do
is a side effect on the browser (requests, widgets, the widget registry, the
DOM, the console), so each handler is a function on an explicit world state
that also appends the effects it performs, in program order, to a trace.
Asynchronous continuations (`then(success, error)`, `.success(cb)`) are kept
as pending entries that a later action resolves or rejects.
-/

/-- Primitive JavaScript values that are read from properties and concatenated
into request paths (`connectorId`, a node `id`, `ngModel.$modelValue`).
Numbers are integral identifiers in the range printed as plain digits. -/
inductive Prim where
  | undefined
  | null
  | num (n : Int)
  | str (s : String)
  deriving DecidableEq, Repr

/-- String conversion applied by `"..." + x`. -/
def Prim.toStr : Prim → String
  | .undefined => "undefined"
  | .null => "null"
  | .num n => toString n
  | .str s => s

namespace CycleTree

/-- Values of `scope.connector` as the watch listener receives them: the
connector reference is a nullable object reference, or not set at all.
Objects are identified by reference, so equality of `obj` values is identity. -/
inductive Connector where
  | undefined
  | null
  | obj (ref : Nat)
  deriving DecidableEq, Repr

/-- The comparison `a != b` on connector values: `null` and `undefined` are
loosely equal to each other and to nothing else, objects compare by reference. -/
def looseNe : Connector → Connector → Bool
  | .undefined, .undefined => false
  | .undefined, .null => false
  | .null, .undefined => false
  | .null, .null => false
  | .obj r, .obj q => r != q
  | _, _ => true

/-- What the link function closes over: the global `APP_ROOT`, `attrs.id`, and
the `connectorId` property of the object behind each reference. -/
structure Env where
  APP_ROOT : String
  attrsId : String
  connectorId : Nat → Prim

/-- A node object of the remote tree; only its `id` is read by this file. -/
structure TreeNode where
  id : Prim
  deriving DecidableEq, Repr

/-- The JSON body of the root request: a root node or a node list. -/
inductive Payload where
  | node (n : TreeNode)
  | nodes (ns : List TreeNode)
  deriving DecidableEq, Repr

/-- The error value a rejected request carries, with its string conversion. -/
structure ErrorValue where
  text : String
  deriving DecidableEq, Repr

/-- The store `new Memory({data: requestData, getChildren: ...})`; the
`getChildren` closure captures `newValue`. -/
structure Store where
  data : Payload
  newValue : Connector
  deriving DecidableEq, Repr

/-- The model `new ObjectStoreModel({store: observableStore, query: {id: 'root'}})`. -/
structure TreeModel where
  store : Store
  queryId : Prim
  deriving DecidableEq, Repr

/-- A `dijit/Tree` instance: `uid` is the identity of the JavaScript object,
the other fields are the constructor arguments. -/
structure Widget where
  uid : Nat
  id : String
  model : TreeModel
  openOnClick : Bool
  deriving DecidableEq, Repr

/-- A request sent with `request.get(path, {handleAs: ...})`. -/
structure Request where
  path : String
  handleAs : String
  deriving DecidableEq, Repr

/-- Effects, recorded in program order. -/
inductive Event where
  | get (req : Request)
  | destroy (uid : Nat)
  | registryRemove (id : String)
  | create (uid : Nat) (id : String)
  | placeAt (uid : Nat)
  | startup (uid : Nat)
  | consoleLog (msg : String)
  | alert (error : ErrorValue)
  deriving DecidableEq, Repr

/-- A root request in flight together with the `newValue` its two
continuations close over. -/
structure Pending where
  rid : Nat
  newValue : Connector
  deriving DecidableEq, Repr

/-- The browser state the directive acts on. `dom` lists the widgets whose
nodes are children of `element[0]`. -/
structure World where
  registry : List Widget
  dom : List Nat
  pending : List Pending
  nextUid : Nat
  nextRid : Nat
  trace : List Event
  deriving DecidableEq, Repr

/-- The state right after linking: nothing registered, placed or requested. -/
def World.init : World :=
  { registry := [], dom := [], pending := [], nextUid := 0, nextRid := 0, trace := [] }

/-- Modelled from the spec: `registry.byId` of the widget registry (dijit/registry,
not in the source file), a lookup structure associating element identifiers
with live widget instances. -/
def byId (registry : List Widget) (id : String) : Option Widget :=
  registry.find? (fun w => w.id == id)

/-- Modelled from the spec: `registry.remove` of the widget registry
(dijit/registry, not in the source file): deregisters whatever is held under `id`. -/
def registryRemove (id : String) (s : World) : World :=
  { s with registry := s.registry.filter (fun w => w.id != id),
           trace := s.trace ++ [Event.registryRemove id] }

/-- Modelled from the spec: `widget.destroy()` of the widget toolkit (not in the
source file): the instance stops being rendered, its node leaves the DOM.
Deregistration is the separate `registry.remove` step. -/
def destroy (w : Widget) (s : World) : World :=
  { s with dom := s.dom.filter (fun u => u != w.uid),
           trace := s.trace ++ [Event.destroy w.uid] }

/-- Modelled from the spec: `new Tree({id, model, openOnClick})` of the widget
toolkit (not in the source file): the new instance is registered under its id;
registering an id that is still registered is an error. -/
def newTree (id : String) (model : TreeModel) (openOnClick : Bool) (s : World) :
    Except String (Widget × World) :=
  if (byId s.registry id).isSome then
    .error ("Tried to register widget with id==" ++ id ++ " but that id is already registered")
  else
    let tree : Widget := { uid := s.nextUid, id := id, model := model, openOnClick := openOnClick }
    .ok (tree, { s with registry := tree :: s.registry,
                        nextUid := s.nextUid + 1,
                        trace := s.trace ++ [Event.create tree.uid id] })

/-- Modelled from the spec: `tree.placeAt(element[0])` of the widget toolkit (not
in the source file): the widget is attached under the target element. -/
def placeAt (tree : Widget) (s : World) : World :=
  { s with dom := s.dom ++ [tree.uid], trace := s.trace ++ [Event.placeAt tree.uid] }

/-- Modelled from the spec: `tree.startup()` of the widget toolkit (not in the
source file). -/
def startup (tree : Widget) (s : World) : World :=
  { s with trace := s.trace ++ [Event.startup tree.uid] }

/-- The property read `newValue.connectorId`; it throws on `null` and `undefined`. -/
def connectorIdOf (env : Env) : Connector → Except String Prim
  | .obj r => .ok (env.connectorId r)
  | .null => .error "TypeError: cannot read property connectorId of null"
  | .undefined => .error "TypeError: cannot read property connectorId of undefined"

/-- The path `APP_ROOT+"secured/connector/" + newValue.connectorId + "/tree/root"`. -/
def rootPath (env : Env) (connectorId : Prim) : String :=
  env.APP_ROOT ++ "secured/connector/" ++ connectorId.toStr ++ "/tree/root"

/-- The path `APP_ROOT+"secured/connector/" + newValue.connectorId + "/tree/"+object.id+"/children"`. -/
def childrenPath (env : Env) (connectorId : Prim) (objectId : Prim) : String :=
  env.APP_ROOT ++ "secured/connector/" ++ connectorId.toStr ++ "/tree/" ++ objectId.toStr
    ++ "/children"

/-- The `getChildren` function of `memoryStore`: the request it sends for `object`. -/
def getChildren (env : Env) (memoryStore : Store) (object : TreeNode) : Except String Request := do
  let connectorId ← connectorIdOf env memoryStore.newValue
  pure { path := childrenPath env connectorId object.id, handleAs := "json" }

/-- The listener of `scope.$watch("connector", ...)`, lines 28-73: the guard and
the `request.get` whose continuations are kept pending. -/
def watchListener (env : Env) (newValue oldValue : Connector) (s : World) : Except String World :=
  if looseNe newValue Connector.undefined && looseNe newValue oldValue then do
    let connectorId ← connectorIdOf env newValue
    pure { s with pending := s.pending ++ [{ rid := s.nextRid, newValue := newValue }],
                  nextRid := s.nextRid + 1,
                  trace := s.trace ++ [Event.get { path := rootPath env connectorId,
                                                   handleAs := "json" }] }
  else
    pure s

/-- The success continuation `function(requestData)`, lines 33-67. -/
def onSuccess (env : Env) (newValue : Connector) (requestData : Payload) (s : World) :
    Except String World := do
  let memoryStore : Store := { data := requestData, newValue := newValue }
  let observableStore := memoryStore
  let treeModel : TreeModel := { store := observableStore, queryId := Prim.str "root" }
  let treeWidget := byId s.registry env.attrsId
  let s1 ← match treeWidget with
    | some _ =>
      match byId s.registry env.attrsId with
      | some w => pure (registryRemove env.attrsId (destroy w s))
      | none => throw "TypeError: cannot read property destroy of undefined"
    | none => pure s
  let (tree, s2) ← newTree env.attrsId treeModel true s1
  pure (startup tree (placeAt tree s2))

/-- The failure continuation `function(error)`, lines 68-71. -/
def onError (error : ErrorValue) (s : World) : World :=
  { s with trace := s.trace ++ [Event.consoleLog ("An error occurred: " ++ error.text),
                                Event.alert error] }

/-- What can happen to a linked directive: the digest calls the watch listener,
or a root request in flight completes one way or the other. -/
inductive Action where
  | watch (newValue oldValue : Connector)
  | resolve (rid : Nat) (requestData : Payload)
  | reject (rid : Nat) (error : ErrorValue)
  deriving DecidableEq, Repr

/-- The request in flight with identifier `rid`, if there is one. -/
def findPending (s : World) (rid : Nat) : Option Pending :=
  s.pending.find? (fun p => p.rid == rid)

/-- Settling a request takes it out of the requests in flight. -/
def settle (rid : Nat) (s : World) : World :=
  { s with pending := s.pending.filter (fun p => p.rid != rid) }

/-- One action. A request that is not in flight cannot complete. -/
def step (env : Env) (a : Action) (s : World) : Except String World :=
  match a with
  | .watch newValue oldValue => watchListener env newValue oldValue s
  | .resolve rid requestData =>
    match findPending s rid with
    | some p => onSuccess env p.newValue requestData (settle rid s)
    | none => pure s
  | .reject rid error =>
    match findPending s rid with
    | some _ => pure (onError error (settle rid s))
    | none => pure s

/-- A sequence of actions, stopping at the first exception. -/
def run (env : Env) : List Action → World → Except String World
  | [], s => pure s
  | a :: as, s => do
    let s1 ← step env a s
    run env as s1

/-- Position of the first occurrence of an event in a trace. -/
def firstIndex (e : Event) : List Event → Option Nat
  | [] => none
  | x :: xs => if x = e then some 0 else (firstIndex e xs).map (· + 1)

/-- Both events occur in the trace and `a` occurs first. -/
def happensBefore (a b : Event) (tr : List Event) : Bool :=
  match firstIndex a tr, firstIndex b tr with
  | some i, some j => i < j
  | _, _ => false

/-- The widget the success continuation constructs in state `s`. -/
def builtTree (env : Env) (newValue : Connector) (requestData : Payload) (s : World) : Widget :=
  { uid := s.nextUid, id := env.attrsId,
    model := { store := { data := requestData, newValue := newValue }, queryId := Prim.str "root" },
    openOnClick := true }

/-- The widgets the registry holds under `id`. -/
def registeredUnder (id : String) (s : World) : List Widget :=
  s.registry.filter (fun w => w.id == id)

/-- The registry and the DOM agree for the target element: at most one widget
is registered under `attrs.id`, the children of `element[0]` are the registered
widgets, and the identifiers of requests in flight have been handed out. -/
structure Consistent (env : Env) (s : World) : Prop where
  one : (registeredUnder env.attrsId s).length ≤ 1
  dom : s.dom = (registeredUnder env.attrsId s).map (fun w => w.uid)
  rids : ∀ p ∈ s.pending, p.rid < s.nextRid

/-- A sample environment: the objects behind the references 1 and 2 are
connectors with the ids 7 and 9, the target element has the id `tree`. -/
def sampleEnv : Env :=
  { APP_ROOT := "/cycle/app/",
    attrsId := "tree",
    connectorId := fun r => if r = 1 then Prim.num 7 else if r = 2 then Prim.num 9
      else Prim.undefined }

/-- The root payload of the scenario. -/
def rootNode : Payload := Payload.node { id := Prim.str "root" }

/-- A sample state: the tree built for the first connector is registered and
placed, and the root request for the second connector is in flight. -/
def sampleWorld : World :=
  { registry := [{ uid := 0, id := "tree",
                   model := { store := { data := rootNode, newValue := Connector.obj 1 },
                              queryId := Prim.str "root" },
                   openOnClick := true }],
    dom := [0],
    pending := [{ rid := 1, newValue := Connector.obj 2 }],
    nextUid := 1,
    nextRid := 2,
    trace := [] }

/-- The trace of a run, empty if it threw. -/
def traceOf : Except String World → List Event
  | .ok s => s.trace
  | .error _ => []

/-- The ways two changes `A` then `B` and the successful completions of their
root fetches can be ordered, each with the store of the tree that the last
completion builds. `rid` is the identifier the first fetch receives. -/
def interleavings (rid : Nat) (A oldA B oldB : Connector) (dataA dataB : Payload) :
    List (List Action × Store) :=
  [ ([Action.watch A oldA, Action.resolve rid dataA,
      Action.watch B oldB, Action.resolve (rid + 1) dataB],
     { data := dataB, newValue := B }),
    ([Action.watch A oldA, Action.watch B oldB,
      Action.resolve rid dataA, Action.resolve (rid + 1) dataB],
     { data := dataB, newValue := B }),
    ([Action.watch A oldA, Action.watch B oldB,
      Action.resolve (rid + 1) dataB, Action.resolve rid dataA],
     { data := dataA, newValue := A }) ]

/-- The scenario of the two changes: the connector 7 is bound and its root fetch
succeeds with the root node, then the connector 9 is bound. -/
def scenario : List Action :=
  [Action.watch (Connector.obj 1) Connector.undefined,
   Action.resolve 0 rootNode,
   Action.watch (Connector.obj 2) (Connector.obj 1)]

/-- The root request of the scenario for the connector 9. -/
def fetchNine : Event :=
  Event.get { path := "/cycle/app/secured/connector/9/tree/root", handleAs := "json" }

end CycleTree

namespace Typeahead

/-- Values held by the `source` option of the typeahead widget: the link
function puts a string literal there, the fetch callback the fetched list. -/
inductive Source where
  | str (s : String)
  | array (items : List String)
  deriving DecidableEq, Repr

/-- The `length` property of a source value. -/
def Source.length : Source → Nat
  | .str s => s.length
  | .array items => items.length

/-- The entries `source[0]`, ..., `source[length - 1]` of a source value: the
elements of an array, the one-character strings of a string. -/
def Source.entries : Source → List String
  | .str s => s.toList.map String.singleton
  | .array items => items

/-- Effects of the typeahead directive, recorded in program order. `assign`
records whether `scope.$apply` was running an expression at that moment. -/
inductive Effect where
  | typeahead (source : Source)
  | httpGet (url : String)
  | assign (item : String) (insideApply : Bool)
  | applyEnter (withFunction : Bool)
  | digest
  | consoleLog (data : List String)
  deriving DecidableEq, Repr

/-- The state the directive acts on: `ngModel.$modelValue`, the `source` of
`typeahead.data('typeahead')`, whether the name-list request is in flight, and
whether `scope.$apply` is currently running the expression it was given. -/
structure State where
  modelValue : Prim
  source : Source
  fetching : Bool
  inApply : Bool
  trace : List Effect
  deriving DecidableEq, Repr

/-- The argument `scope.$apply` receives: nothing, or a function to run. -/
inductive ApplyArg where
  | undefined
  | fn (f : State → State)

/-- Whether the argument is a function. -/
def ApplyArg.isFn : ApplyArg → Bool
  | .undefined => false
  | .fn _ => true

/-- The function `read(item)`, lines 96-98: the assignment
`ngModel.$modelValue = item`; there is no `return`, so the call evaluates to
`undefined`. -/
def read (item : String) (s : State) : ApplyArg × State :=
  (ApplyArg.undefined,
   { s with modelValue := Prim.str item,
            trace := s.trace ++ [Effect.assign item s.inApply] })

/-- Modelled from the spec: `scope.$apply(expr)` of the host framework (not in the
source file), its change-detection cycle: it runs the function it is given, if
any, inside the cycle and then digests. The digest is recorded; watchers of
other components are outside this file. -/
def scopeApply (expr : ApplyArg) (s : State) : State :=
  let s1 := { s with inApply := true, trace := s.trace ++ [Effect.applyEnter expr.isFn] }
  let s2 := match expr with
    | .fn f => f s1
    | .undefined => s1
  { s2 with inApply := s.inApply, trace := s2.trace ++ [Effect.digest] }

/-- The `updater` callback, lines 89-92: `scope.$apply(read(item)); return item;`.
The argument `read(item)` is evaluated first, then `scope.$apply` is called
with its value. -/
def updater (item : String) (s : State) : String × State :=
  let (arg, s1) := read item s
  let s2 := scopeApply arg s1
  (item, s2)

/-- The link function, lines 86-104, on a control whose model value is
`modelValue`: the widget is initialised with `source: '[]'` and the name list
is requested. -/
def link (modelValue : Prim) : State :=
  { modelValue := modelValue,
    source := Source.str "[]",
    fetching := true,
    inApply := false,
    trace := [Effect.typeahead (Source.str "[]"),
              Effect.httpGet "../../resources/diagram/modelerNames"] }

/-- The callback given to `.success`, lines 100-103. -/
def success (data : List String) (s : State) : State :=
  { s with source := Source.array data, trace := s.trace ++ [Effect.consoleLog data] }

/-- What can happen after linking: the user selects an item, or the name-list
request completes one way or the other. No failure callback is registered. -/
inductive Input where
  | select (item : String)
  | fetched (data : List String)
  | failed
  deriving DecidableEq, Repr

/-- One input. A request that is no longer in flight cannot complete. -/
def react (a : Input) (s : State) : State :=
  match a with
  | .select item => (updater item s).2
  | .fetched data => if s.fetching then success data { s with fetching := false } else s
  | .failed => if s.fetching then { s with fetching := false } else s

end Typeahead

namespace CycleTree

theorem looseNe_undefined_iff (v : Connector) :
    looseNe v Connector.undefined = true ↔ v ≠ Connector.undefined ∧ v ≠ Connector.null := by
  cases v <;> simp [looseNe]

theorem looseNe_obj_iff (r : Nat) (v : Connector) :
    looseNe (Connector.obj r) v = true ↔ Connector.obj r ≠ v := by
  cases v <;> simp [looseNe]

theorem watchListener_obj (env : Env) (r : Nat) (oldValue : Connector) (s : World)
    (h : Connector.obj r ≠ oldValue) :
    watchListener env (Connector.obj r) oldValue s =
      Except.ok { s with
        pending := s.pending ++ [{ rid := s.nextRid, newValue := Connector.obj r }],
        nextRid := s.nextRid + 1,
        trace := s.trace ++ [Event.get { path := rootPath env (env.connectorId r),
                                         handleAs := "json" }] } := by
  have h1 : looseNe (Connector.obj r) oldValue = true := (looseNe_obj_iff r oldValue).2 h
  have h0 : looseNe (Connector.obj r) Connector.undefined = true := rfl
  unfold watchListener
  rw [h0, h1]
  rfl

theorem watchListener_skip (env : Env) (newValue oldValue : Connector) (s : World)
    (h : newValue = Connector.undefined ∨ newValue = Connector.null ∨ newValue = oldValue) :
    watchListener env newValue oldValue s = Except.ok s := by
  rcases h with h | h | h
  · subst h; simp [watchListener, looseNe]; rfl
  · subst h; simp [watchListener, looseNe]; rfl
  · subst h; cases newValue <;> simp [watchListener, looseNe] <;> rfl

theorem byId_filter_ne (registry : List Widget) (id : String) :
    byId (registry.filter (fun w => w.id != id)) id = none := by
  simp [byId, List.find?_eq_none]

theorem filter_ne_of_byId_none (registry : List Widget) (id : String)
    (h : byId registry id = none) : registry.filter (fun w => w.id != id) = registry := by
  simp only [byId, List.find?_eq_none] at h
  rw [List.filter_eq_self]
  intro w hw
  simpa using h w hw

theorem onSuccess_some (env : Env) (newValue : Connector) (requestData : Payload) (s : World)
    (w : Widget) (h : byId s.registry env.attrsId = some w) :
    onSuccess env newValue requestData s = Except.ok
      { registry := builtTree env newValue requestData s ::
          s.registry.filter (fun w => w.id != env.attrsId),
        dom := s.dom.filter (fun u => u != w.uid) ++ [s.nextUid],
        pending := s.pending,
        nextUid := s.nextUid + 1,
        nextRid := s.nextRid,
        trace := s.trace ++ [Event.destroy w.uid, Event.registryRemove env.attrsId,
          Event.create s.nextUid env.attrsId, Event.placeAt s.nextUid,
          Event.startup s.nextUid] } := by
  unfold onSuccess
  simp [h, newTree, registryRemove, destroy, byId_filter_ne, placeAt, startup, builtTree,
    bind, Except.bind, pure, Except.pure]

theorem onSuccess_none (env : Env) (newValue : Connector) (requestData : Payload) (s : World)
    (h : byId s.registry env.attrsId = none) :
    onSuccess env newValue requestData s = Except.ok
      { registry := builtTree env newValue requestData s :: s.registry,
        dom := s.dom ++ [s.nextUid],
        pending := s.pending,
        nextUid := s.nextUid + 1,
        nextRid := s.nextRid,
        trace := s.trace ++ [Event.create s.nextUid env.attrsId, Event.placeAt s.nextUid,
          Event.startup s.nextUid] } := by
  unfold onSuccess
  simp [h, newTree, placeAt, startup, builtTree, bind, Except.bind, pure, Except.pure]

theorem registeredUnder_of_byId_none (registry : List Widget) (id : String)
    (h : byId registry id = none) : registry.filter (fun w => w.id == id) = [] := by
  simp only [byId, List.find?_eq_none] at h
  rw [List.filter_eq_nil_iff]
  exact h

theorem registeredUnder_of_byId_some (registry : List Widget) (id : String) (w : Widget)
    (h : byId registry id = some w)
    (hone : (registry.filter (fun w => w.id == id)).length ≤ 1) :
    registry.filter (fun w => w.id == id) = [w] := by
  induction registry with
  | nil => simp [byId] at h
  | cons x xs ih =>
    by_cases hx : (x.id == id) = true
    · have hw : x = w := by simpa [byId, List.find?_cons, hx] using h
      subst hw
      have hlen : (xs.filter (fun w => w.id == id)).length = 0 := by
        simp only [List.filter_cons, hx, if_true, List.length_cons] at hone
        omega
      simp only [List.filter_cons, hx, if_true]
      rw [List.length_eq_zero.1 hlen]
    · have hx2 : (x.id == id) = false := by simpa using hx
      simp only [List.filter_cons, hx2] at hone ⊢
      simp only [byId, List.find?_cons, hx2] at h
      exact ih h (by simpa using hone)

theorem filter_eq_filter_ne (registry : List Widget) (id : String) :
    (registry.filter (fun w => w.id != id)).filter (fun w => w.id == id) = [] := by
  rw [List.filter_eq_nil_iff]
  intro w hw
  have := (List.mem_filter.1 hw).2
  simpa using this

/-- The success continuation never throws; afterwards exactly the widget it built is
registered under `attrs.id`. -/
theorem onSuccess_registered (env : Env) (newValue : Connector) (requestData : Payload)
    (s : World) :
    ∃ s1, onSuccess env newValue requestData s = Except.ok s1 ∧
      registeredUnder env.attrsId s1 = [builtTree env newValue requestData s] ∧
      byId s1.registry env.attrsId = some (builtTree env newValue requestData s) ∧
      s1.pending = s.pending ∧ s1.nextRid = s.nextRid ∧ s1.nextUid = s.nextUid + 1 ∧
      Event.create s.nextUid env.attrsId ∈ s1.trace ∧ (∀ e ∈ s.trace, e ∈ s1.trace) := by
  cases h : byId s.registry env.attrsId with
  | none =>
    refine ⟨_, onSuccess_none env newValue requestData s h, ?_, ?_, rfl, rfl, rfl, ?_, ?_⟩
    · simp [registeredUnder, List.filter_cons, builtTree, registeredUnder_of_byId_none _ _ h]
    · simp [byId, builtTree]
    · simp
    · intro e he; simp [he]
  | some w =>
    refine ⟨_, onSuccess_some env newValue requestData s w h, ?_, ?_, rfl, rfl, rfl, ?_, ?_⟩
    · simp only [registeredUnder, List.filter_cons, builtTree, beq_self_eq_true, if_true,
        filter_eq_filter_ne]
    · simp [byId, builtTree]
    · simp
    · intro e he; simp [he]

/-- On a consistent state the success continuation leaves exactly the new widget
under the target element. -/
theorem onSuccess_dom (env : Env) (newValue : Connector) (requestData : Payload)
    (s s1 : World) (hc : Consistent env s)
    (h1 : onSuccess env newValue requestData s = Except.ok s1) : s1.dom = [s.nextUid] := by
  cases h : byId s.registry env.attrsId with
  | none =>
    rw [onSuccess_none env newValue requestData s h] at h1
    injection h1 with h1
    subst h1
    have hd := hc.dom
    simp only [registeredUnder, registeredUnder_of_byId_none _ _ h, List.map_nil] at hd
    simp [hd]
  | some w =>
    rw [onSuccess_some env newValue requestData s w h] at h1
    injection h1 with h1
    subst h1
    have hd := hc.dom
    have ho := hc.one
    simp only [registeredUnder] at hd ho
    rw [registeredUnder_of_byId_some _ _ w h ho] at hd
    simp [hd]

/-- The watch listener never throws and touches neither the registry nor the DOM. -/
theorem watchListener_frame (env : Env) (newValue oldValue : Connector) (s : World) :
    ∃ s1, watchListener env newValue oldValue s = Except.ok s1 ∧
      s1.registry = s.registry ∧ s1.dom = s.dom ∧ s.nextRid ≤ s1.nextRid ∧
      (∀ p ∈ s1.pending, p ∈ s.pending ∨ p.rid = s.nextRid ∧ s.nextRid < s1.nextRid) := by
  by_cases h : newValue = Connector.undefined ∨ newValue = Connector.null ∨ newValue = oldValue
  · exact ⟨s, watchListener_skip env newValue oldValue s h, rfl, rfl, le_refl _,
      fun p hp => Or.inl hp⟩
  · cases newValue with
    | undefined => exact absurd (Or.inl rfl) h
    | null => exact absurd (Or.inr (Or.inl rfl)) h
    | obj r =>
      have hne : Connector.obj r ≠ oldValue := fun e => h (Or.inr (Or.inr e))
      refine ⟨_, watchListener_obj env r oldValue s hne, rfl, rfl, Nat.le_succ _, ?_⟩
      intro p hp
      rcases List.mem_append.1 hp with hp | hp
      · exact Or.inl hp
      · right
        have : p = { rid := s.nextRid, newValue := Connector.obj r } := by simpa using hp
        subst this
        exact ⟨rfl, Nat.lt_succ_self _⟩

/-- No action throws, and one widget at most stays registered under `attrs.id`. -/
theorem step_one (env : Env) (a : Action) (s : World)
    (h : (registeredUnder env.attrsId s).length ≤ 1) :
    ∃ s1, step env a s = Except.ok s1 ∧ (registeredUnder env.attrsId s1).length ≤ 1 := by
  cases a with
  | watch newValue oldValue =>
    obtain ⟨s1, h1, hr, _, _, _⟩ := watchListener_frame env newValue oldValue s
    exact ⟨s1, h1, by simpa [registeredUnder, hr] using h⟩
  | resolve rid requestData =>
    cases hp : findPending s rid with
    | none => exact ⟨s, by simp [step, hp, pure, Except.pure], h⟩
    | some p =>
      obtain ⟨s1, h1, hr, _⟩ := onSuccess_registered env p.newValue requestData (settle rid s)
      exact ⟨s1, by simp [step, hp, h1], by simp [hr]⟩
  | reject rid error =>
    cases hp : findPending s rid with
    | none => exact ⟨s, by simp [step, hp, pure, Except.pure], h⟩
    | some p =>
      exact ⟨onError error (settle rid s), by simp [step, hp, pure, Except.pure],
        by simpa [registeredUnder, onError, settle] using h⟩

theorem run_one (env : Env) (acts : List Action) (s : World)
    (h : (registeredUnder env.attrsId s).length ≤ 1) :
    ∃ s1, run env acts s = Except.ok s1 ∧ (registeredUnder env.attrsId s1).length ≤ 1 := by
  induction acts generalizing s with
  | nil => exact ⟨s, rfl, h⟩
  | cons a as ih =>
    obtain ⟨s1, h1, hone⟩ := step_one env a s h
    obtain ⟨s2, h2, htwo⟩ := ih s1 hone
    exact ⟨s2, by simp [run, h1, h2, bind, Except.bind], htwo⟩

/-- C1 as stated fails: `null` is a defined value (it is not `undefined`) and it
differs from the previous connector object, yet the watch listener issues no
fetch and leaves the state as it was. -/
theorem watch_null_issues_no_fetch :
    Connector.null ≠ Connector.undefined ∧ Connector.null ≠ Connector.obj 1 ∧
    watchListener sampleEnv Connector.null (Connector.obj 1) World.init
      = Except.ok World.init :=
  ⟨by decide, by decide, rfl⟩

/-- C1 amended: when `newValue` is neither `undefined` nor `null` and differs from
`oldValue`, the watch listener issues exactly one request, the root-tree fetch,
and keeps its continuations pending; when `newValue` is `undefined`, `null` or
equal to `oldValue` it issues nothing and leaves the state unchanged. -/
theorem watch_fetches_once (env : Env) (newValue oldValue : Connector) (s : World) :
    (newValue ≠ Connector.undefined ∧ newValue ≠ Connector.null ∧ newValue ≠ oldValue →
      ∃ c, watchListener env newValue oldValue s = Except.ok
        { s with
          pending := s.pending ++ [{ rid := s.nextRid, newValue := newValue }],
          nextRid := s.nextRid + 1,
          trace := s.trace ++ [Event.get { path := rootPath env c, handleAs := "json" }] }) ∧
    (newValue = Connector.undefined ∨ newValue = Connector.null ∨ newValue = oldValue →
      watchListener env newValue oldValue s = Except.ok s) := by
  refine ⟨?_, watchListener_skip env newValue oldValue s⟩
  rintro ⟨hu, hn, ho⟩
  cases newValue with
  | undefined => exact absurd rfl hu
  | null => exact absurd rfl hn
  | obj r => exact ⟨env.connectorId r, watchListener_obj env r oldValue s ho⟩

/-- C1 amended, at the first change of the scenario and at a change to `null`. -/
theorem watch_fetches_once_witness :
    (∃ c, watchListener sampleEnv (Connector.obj 1) Connector.undefined World.init = Except.ok
        { World.init with
          pending := World.init.pending ++ [{ rid := World.init.nextRid,
                                              newValue := Connector.obj 1 }],
          nextRid := World.init.nextRid + 1,
          trace := World.init.trace ++
            [Event.get { path := rootPath sampleEnv c, handleAs := "json" }] }) ∧
    watchListener sampleEnv Connector.null (Connector.obj 1) sampleWorld
      = Except.ok sampleWorld :=
  ⟨(watch_fetches_once sampleEnv (Connector.obj 1) Connector.undefined World.init).1
      ⟨by decide, by decide, by decide⟩,
    (watch_fetches_once sampleEnv Connector.null (Connector.obj 1) sampleWorld).2
      (Or.inr (Or.inl rfl))⟩

/-- C2: when a widget is registered under the target element id, the success
continuation destroys it, then removes it from the registry, and only then
creates, places and starts the new tree, which is afterwards the only widget
under that id; and over any further sequence of actions (every sequence of
successful rebuilds among them) no creation is refused because the id is still
registered and the registry never holds more than one widget under that id. -/
theorem rebuild_destroys_before_create (env : Env) (s : World) (w : Widget)
    (newValue : Connector) (requestData : Payload)
    (hreg : byId s.registry env.attrsId = some w) :
    ∃ s1, onSuccess env newValue requestData s = Except.ok s1 ∧
      s1.trace = s.trace ++ [Event.destroy w.uid, Event.registryRemove env.attrsId,
        Event.create s.nextUid env.attrsId, Event.placeAt s.nextUid,
        Event.startup s.nextUid] ∧
      registeredUnder env.attrsId s1 = [builtTree env newValue requestData s] ∧
      ∀ acts : List Action, ∃ s2, run env acts s1 = Except.ok s2 ∧
        (registeredUnder env.attrsId s2).length ≤ 1 := by
  obtain ⟨s1, h1, hr, _⟩ := onSuccess_registered env newValue requestData s
  refine ⟨s1, h1, ?_, hr, fun acts => run_one env acts s1 (by simp [hr])⟩
  rw [onSuccess_some env newValue requestData s w hreg] at h1
  injection h1 with h1
  rw [← h1]

/-- C2 on the sample state: the tree of the first connector is destroyed and
deregistered before the tree of the second one is created, and a further
rebuild leaves one widget under the id. -/
theorem rebuild_destroys_before_create_witness :
    ∃ s1, onSuccess sampleEnv (Connector.obj 2) rootNode sampleWorld = Except.ok s1 ∧
      s1.trace = [Event.destroy 0, Event.registryRemove "tree", Event.create 1 "tree",
        Event.placeAt 1, Event.startup 1] ∧
      ∃ s2, run sampleEnv [Action.watch (Connector.obj 1) (Connector.obj 2),
          Action.resolve 2 rootNode] s1 = Except.ok s2 ∧
        (registeredUnder "tree" s2).length ≤ 1 :=
  match rebuild_destroys_before_create sampleEnv sampleWorld
      { uid := 0, id := "tree",
        model := { store := { data := rootNode, newValue := Connector.obj 1 },
                   queryId := Prim.str "root" },
        openOnClick := true }
      (Connector.obj 2) rootNode (by decide) with
  | ⟨s1, h1, ht, _, hall⟩ => ⟨s1, h1, ht, hall _⟩

theorem findPending_settle (s : World) (rid : Nat) : findPending (settle rid s) rid = none := by
  simp [findPending, settle, List.find?_eq_none]

theorem path_literals (a c : String) :
    a ++ "secured/connector/" ++ c ++ "/tree/" ++ "n1" ++ "/children"
      = a ++ "secured/connector/" ++ c ++ "/tree/n1/children" := by
  have h : "/tree/" ++ ("n1" ++ "/children") = "/tree/n1/children" := by decide
  rw [String.append_assoc, String.append_assoc _ "/tree/", h]

/-- C3: when a root fetch in flight is rejected, the failure continuation logs once
and alerts once and does nothing else: no widget is constructed, registered or
placed, and the settled attempt cannot fail a second time. -/
theorem reject_alerts_once (env : Env) (s : World) (rid : Nat) (error : ErrorValue)
    (p : Pending) (hp : findPending s rid = some p) :
    ∃ s1, step env (Action.reject rid error) s = Except.ok s1 ∧
      s1.trace = s.trace ++ [Event.consoleLog ("An error occurred: " ++ error.text),
        Event.alert error] ∧
      s1.registry = s.registry ∧ s1.dom = s.dom ∧ s1.nextUid = s.nextUid ∧
      step env (Action.reject rid error) s1 = Except.ok s1 := by
  refine ⟨onError error (settle rid s), by simp [step, hp, pure, Except.pure], rfl, rfl, rfl,
    rfl, ?_⟩
  have h : findPending (onError error (settle rid s)) rid = none := findPending_settle s rid
  simp [step, h, pure, Except.pure]

/-- C3 on the sample state: the request in flight fails. -/
theorem reject_alerts_once_witness :
    ∃ s1, step sampleEnv (Action.reject 1 { text := "Error: timeout" }) sampleWorld
        = Except.ok s1 ∧
      s1.trace = [Event.consoleLog "An error occurred: Error: timeout",
        Event.alert { text := "Error: timeout" }] ∧
      s1.registry = sampleWorld.registry ∧ s1.dom = [0] :=
  match reject_alerts_once sampleEnv sampleWorld 1 { text := "Error: timeout" }
      { rid := 1, newValue := Connector.obj 2 } (by decide) with
  | ⟨s1, h1, ht, hr, hd, _⟩ => ⟨s1, h1, ht, hr, hd⟩

/-- C4: the tree built when the root fetch for the connector object `r` succeeds
carries a store whose `getChildren(object)` requests, as JSON, the path
`APP_ROOT + "secured/connector/" + connectorId + "/tree/" + object.id + "/children"`
with the `connectorId` of `r`, so `.../tree/n1/children` for the node `n1`; and a
later change of the bound connector leaves that tree and its store in place. -/
theorem getChildren_path (env : Env) (s : World) (rid r : Nat) (p : Pending)
    (requestData : Payload) (object : TreeNode)
    (hp : findPending s rid = some p) (hv : p.newValue = Connector.obj r) :
    ∃ s1 w, step env (Action.resolve rid requestData) s = Except.ok s1 ∧
      byId s1.registry env.attrsId = some w ∧
      getChildren env w.model.store object = Except.ok
        { path := env.APP_ROOT ++ "secured/connector/" ++ (env.connectorId r).toStr
            ++ "/tree/" ++ object.id.toStr ++ "/children",
          handleAs := "json" } ∧
      getChildren env w.model.store { id := Prim.str "n1" } = Except.ok
        { path := env.APP_ROOT ++ "secured/connector/" ++ (env.connectorId r).toStr
            ++ "/tree/n1/children",
          handleAs := "json" } ∧
      ∀ newValue oldValue, ∃ s2, step env (Action.watch newValue oldValue) s1 = Except.ok s2 ∧
        byId s2.registry env.attrsId = some w := by
  obtain ⟨s1, h1, _, hb, _⟩ := onSuccess_registered env p.newValue requestData (settle rid s)
  refine ⟨s1, _, by simp [step, hp, h1], hb, ?_, ?_, ?_⟩
  · simp [getChildren, builtTree, hv, connectorIdOf, childrenPath, bind, Except.bind, pure,
      Except.pure]
  · simp only [getChildren, builtTree, hv, connectorIdOf, childrenPath, bind, Except.bind, pure,
      Except.pure, Prim.toStr, path_literals]
  · intro newValue oldValue
    obtain ⟨s2, h2, hr, _⟩ := watchListener_frame env newValue oldValue s1
    exact ⟨s2, by simp [step, h2], by rw [hr]; exact hb⟩

/-- C4 on the sample state: the tree built for the connector with id 9 asks for the
children of `n1` under `secured/connector/9/tree/n1/children`. -/
theorem getChildren_path_witness :
    ∃ s1 w, step sampleEnv (Action.resolve 1 rootNode) sampleWorld = Except.ok s1 ∧
      byId s1.registry "tree" = some w ∧
      getChildren sampleEnv w.model.store { id := Prim.str "n1" } = Except.ok
        { path := "/cycle/app/secured/connector/9/tree/n1/children", handleAs := "json" } :=
  match getChildren_path sampleEnv sampleWorld 1 2 { rid := 1, newValue := Connector.obj 2 }
      rootNode { id := Prim.str "n1" } (by decide) rfl with
  | ⟨s1, w, h1, hb, _, hc, _⟩ => ⟨s1, w, h1, hb, hc⟩

/-- C5: a connector object that triggers the fetch is requested, as JSON, at
`APP_ROOT + "secured/connector/" + connectorId + "/tree/root"`; for the connector
id 7 that is `APP_ROOT + "secured/connector/7/tree/root"`. -/
theorem root_request_path (env : Env) (r : Nat) (oldValue : Connector) (s : World)
    (h : Connector.obj r ≠ oldValue) :
    watchListener env (Connector.obj r) oldValue s = Except.ok
      { s with
        pending := s.pending ++ [{ rid := s.nextRid, newValue := Connector.obj r }],
        nextRid := s.nextRid + 1,
        trace := s.trace ++ [Event.get
          { path := env.APP_ROOT ++ "secured/connector/" ++ (env.connectorId r).toStr
              ++ "/tree/root",
            handleAs := "json" }] } ∧
    (env.connectorId r = Prim.num 7 →
      watchListener env (Connector.obj r) oldValue s = Except.ok
        { s with
          pending := s.pending ++ [{ rid := s.nextRid, newValue := Connector.obj r }],
          nextRid := s.nextRid + 1,
          trace := s.trace ++ [Event.get
            { path := env.APP_ROOT ++ "secured/connector/7/tree/root",
              handleAs := "json" }] }) := by
  refine ⟨watchListener_obj env r oldValue s h, fun h7 => ?_⟩
  rw [watchListener_obj env r oldValue s h, rootPath, h7]
  have e : env.APP_ROOT ++ "secured/connector/" ++ (Prim.num 7).toStr ++ "/tree/root"
      = env.APP_ROOT ++ "secured/connector/7/tree/root" := by
    have h : "secured/connector/" ++ ((Prim.num 7).toStr ++ "/tree/root")
        = "secured/connector/7/tree/root" := by decide
    rw [String.append_assoc, String.append_assoc, h]
  rw [e]

/-- C5 at the first change of the scenario, from `undefined` to the connector 7. -/
theorem root_request_path_witness :
    watchListener sampleEnv (Connector.obj 1) Connector.undefined World.init = Except.ok
      { World.init with
        pending := [{ rid := 0, newValue := Connector.obj 1 }],
        nextRid := 1,
        trace := [Event.get { path := "/cycle/app/secured/connector/7/tree/root",
                              handleAs := "json" }] } :=
  (root_request_path sampleEnv 1 Connector.undefined World.init (by decide)).2 rfl

theorem find_fresh (P : List Pending) (n m : Nat) (h : ∀ p ∈ P, p.rid < n) (hm : n ≤ m) :
    P.find? (fun p => p.rid == m) = none := by
  rw [List.find?_eq_none]
  intro p hp
  have := h p hp
  simp
  omega

theorem filter_fresh (P : List Pending) (n m : Nat) (h : ∀ p ∈ P, p.rid < n) (hm : n ≤ m) :
    P.filter (fun p => p.rid != m) = P := by
  rw [List.filter_eq_self]
  intro p hp
  have := h p hp
  simp
  omega

/-- A firing change on a consistent state: one more request in flight, nothing
else touched. -/
theorem watch_consistent (env : Env) (r : Nat) (oldValue : Connector) (s : World)
    (hc : Consistent env s) (h : Connector.obj r ≠ oldValue) :
    ∃ s1, step env (Action.watch (Connector.obj r) oldValue) s = Except.ok s1 ∧
      Consistent env s1 ∧
      s1.pending = s.pending ++ [{ rid := s.nextRid, newValue := Connector.obj r }] ∧
      s1.nextRid = s.nextRid + 1 ∧ s1.nextUid = s.nextUid ∧ s1.registry = s.registry ∧
      s1.dom = s.dom ∧
      s1.trace = s.trace ++ [Event.get { path := rootPath env (env.connectorId r),
                                         handleAs := "json" }] := by
  refine ⟨{ s with
      pending := s.pending ++ [{ rid := s.nextRid, newValue := Connector.obj r }],
      nextRid := s.nextRid + 1,
      trace := s.trace ++ [Event.get { path := rootPath env (env.connectorId r),
                                       handleAs := "json" }] },
    by simp only [step]; exact watchListener_obj env r oldValue s h,
    ⟨hc.one, hc.dom, ?_⟩, rfl, rfl, rfl, rfl, rfl, rfl⟩
  intro p hp
  rcases List.mem_append.1 hp with hp | hp
  · exact Nat.lt_succ_of_lt (hc.rids p hp)
  · have : p = { rid := s.nextRid, newValue := Connector.obj r } := by simpa using hp
    subst this
    exact Nat.lt_succ_self _

/-- A successful completion on a consistent state: the widget built from the
captured connector and the payload is the one registered and placed. -/
theorem resolve_consistent (env : Env) (rid : Nat) (requestData : Payload) (s : World)
    (p : Pending) (hc : Consistent env s) (hp : findPending s rid = some p) :
    ∃ s1, step env (Action.resolve rid requestData) s = Except.ok s1 ∧
      Consistent env s1 ∧
      registeredUnder env.attrsId s1 = [builtTree env p.newValue requestData s] ∧
      byId s1.registry env.attrsId = some (builtTree env p.newValue requestData s) ∧
      s1.dom = [s.nextUid] ∧
      s1.pending = s.pending.filter (fun q => q.rid != rid) ∧
      s1.nextRid = s.nextRid ∧ s1.nextUid = s.nextUid + 1 ∧
      Event.create s.nextUid env.attrsId ∈ s1.trace ∧ (∀ e ∈ s.trace, e ∈ s1.trace) := by
  have hcs : Consistent env (settle rid s) :=
    ⟨hc.one, hc.dom, fun q hq => hc.rids q (List.mem_filter.1 hq).1⟩
  obtain ⟨s1, h1, hr, hb, hpend, hrid, huid, hcr, hmono⟩ :=
    onSuccess_registered env p.newValue requestData (settle rid s)
  have hd := onSuccess_dom env p.newValue requestData (settle rid s) s1 hcs h1
  refine ⟨s1, by simp [step, hp, h1], ⟨?_, ?_, ?_⟩, hr, hb, hd, hpend, hrid, huid, hcr, hmono⟩
  · rw [hr]; simp
  · rw [hr, hd]; rfl
  · intro q hq
    rw [hpend] at hq
    rw [hrid]
    exact hcs.rids q hq

theorem run_four (env : Env) (a1 a2 a3 a4 : Action) (s s1 s2 s3 s4 : World)
    (e1 : step env a1 s = Except.ok s1) (e2 : step env a2 s1 = Except.ok s2)
    (e3 : step env a3 s2 = Except.ok s3) (e4 : step env a4 s3 = Except.ok s4) :
    run env [a1, a2, a3, a4] s = Except.ok s4 := by
  simp [run, e1, e2, e3, e4, bind, Except.bind, pure, Except.pure]

theorem findPending_last (s : World) (P : List Pending) (n m : Nat) (v : Connector)
    (hP : ∀ p ∈ P, p.rid < n) (hm : n ≤ m)
    (hs : s.pending = P ++ [{ rid := m, newValue := v }]) :
    findPending s m = some { rid := m, newValue := v } := by
  simp [findPending, hs, List.find?_append, find_fresh P n m hP hm]

theorem filter_last (P : List Pending) (n m : Nat) (v : Connector)
    (hP : ∀ p ∈ P, p.rid < n) (hm : n ≤ m) :
    (P ++ [({ rid := m, newValue := v } : Pending)]).filter (fun q => q.rid != m) = P := by
  simp [List.filter_append, filter_fresh P n m hP hm]

/-- C8: for each way of ordering two firing changes `A` then `B` on one element and
the successful completions of their root fetches, the run does not throw, both
success continuations run (each creates its tree, neither request stays in
flight), and the one widget registered under the element id and placed under
the element afterwards is the tree built by the completion that came last. -/
theorem last_completion_wins (env : Env) (s : World) (a b : Nat) (oldA oldB : Connector)
    (dataA dataB : Payload) (hc : Consistent env s)
    (hA : Connector.obj a ≠ oldA) (hB : Connector.obj b ≠ oldB) :
    ∀ acts store,
      (acts, store) ∈ interleavings s.nextRid (Connector.obj a) oldA (Connector.obj b) oldB
        dataA dataB →
      ∃ s1 w, run env acts s = Except.ok s1 ∧
        registeredUnder env.attrsId s1 = [w] ∧ byId s1.registry env.attrsId = some w ∧
        w.model.store = store ∧ s1.dom = [w.uid] ∧ s1.pending = s.pending ∧
        Event.create s.nextUid env.attrsId ∈ s1.trace ∧
        Event.create (s.nextUid + 1) env.attrsId ∈ s1.trace := by
  intro acts store hmem
  have hrids := hc.rids
  have hrids1 : ∀ p ∈ s.pending, p.rid < s.nextRid + 1 := fun p hp =>
    Nat.lt_succ_of_lt (hrids p hp)
  obtain ⟨s1, e1, c1, p1, r1, u1, _, _, _⟩ := watch_consistent env a oldA s hc hA
  simp only [interleavings, List.mem_cons, Prod.mk.injEq, List.mem_singleton,
    List.not_mem_nil, or_false] at hmem
  rcases hmem with ⟨rfl, rfl⟩ | ⟨rfl, rfl⟩ | ⟨rfl, rfl⟩
  · -- A completes before B is issued
    have f1 := findPending_last s1 s.pending s.nextRid s.nextRid _ hrids (le_refl _) p1
    obtain ⟨s2, e2, c2, _, _, _, p2, r2, u2, cr2, _⟩ :=
      resolve_consistent env s.nextRid dataA s1 _ c1 f1
    rw [p1, filter_last s.pending s.nextRid s.nextRid _ hrids (le_refl _)] at p2
    obtain ⟨s3, e3, c3, p3, r3, u3, _, _, t3⟩ := watch_consistent env b oldB s2 c2 hB
    rw [p2, r2, r1] at p3
    have f3 := findPending_last s3 s.pending s.nextRid (s.nextRid + 1) _ hrids
      (Nat.le_succ _) p3
    obtain ⟨s4, e4, c4, hr4, hb4, hd4, p4, r4, u4, cr4, m4⟩ :=
      resolve_consistent env (s.nextRid + 1) dataB s3 _ c3 f3
    rw [p3, filter_last s.pending s.nextRid (s.nextRid + 1) _ hrids (Nat.le_succ _)] at p4
    refine ⟨s4, _, run_four env _ _ _ _ s s1 s2 s3 s4 e1 e2 e3 e4, hr4, hb4, rfl, hd4, p4,
      ?_, ?_⟩
    · apply m4
      rw [t3]
      rw [u1] at cr2
      simp [cr2]
    · rw [u3, u2, u1] at cr4
      exact cr4
  · -- both issued, A completes first
    obtain ⟨s2, e2, c2, p2, r2, u2, _, _, _⟩ := watch_consistent env b oldB s1 c1 hB
    rw [p1, r1] at p2
    have f2 : findPending s2 s.nextRid = some { rid := s.nextRid, newValue := Connector.obj a } := by
      simp [findPending, p2, List.find?_append, find_fresh s.pending _ _ hrids (le_refl _)]
    obtain ⟨s3, e3, c3, _, _, _, p3, r3, u3, cr3, _⟩ :=
      resolve_consistent env s.nextRid dataA s2 _ c2 f2
    have p3b : s3.pending = s.pending ++ [{ rid := s.nextRid + 1, newValue := Connector.obj b }] := by
      rw [p3, p2]
      simp [List.filter_append, filter_fresh s.pending _ _ hrids (le_refl _)]
    have f3 := findPending_last s3 s.pending s.nextRid (s.nextRid + 1) _ hrids
      (Nat.le_succ _) p3b
    obtain ⟨s4, e4, c4, hr4, hb4, hd4, p4, r4, u4, cr4, m4⟩ :=
      resolve_consistent env (s.nextRid + 1) dataB s3 _ c3 f3
    rw [p3b, filter_last s.pending s.nextRid (s.nextRid + 1) _ hrids (Nat.le_succ _)] at p4
    refine ⟨s4, _, run_four env _ _ _ _ s s1 s2 s3 s4 e1 e2 e3 e4, hr4, hb4, rfl, hd4, p4,
      ?_, ?_⟩
    · apply m4
      rw [u2, u1] at cr3
      exact cr3
    · rw [u3, u2, u1] at cr4
      exact cr4
  · -- both issued, B completes first
    obtain ⟨s2, e2, c2, p2, r2, u2, _, _, _⟩ := watch_consistent env b oldB s1 c1 hB
    rw [p1, r1] at p2
    have f2 := findPending_last s2 (s.pending ++ [{ rid := s.nextRid, newValue := Connector.obj a }])
      (s.nextRid + 1) (s.nextRid + 1) (Connector.obj b)
      (by
        intro q hq
        rcases List.mem_append.1 hq with hq | hq
        · exact hrids1 q hq
        · have : q = { rid := s.nextRid, newValue := Connector.obj a } := by simpa using hq
          subst this
          exact Nat.lt_succ_self _)
      (le_refl _) p2
    obtain ⟨s3, e3, c3, _, _, _, p3, r3, u3, cr3, _⟩ :=
      resolve_consistent env (s.nextRid + 1) dataB s2 _ c2 f2
    have p3b : s3.pending = s.pending ++ [{ rid := s.nextRid, newValue := Connector.obj a }] := by
      rw [p3, p2]
      simp [List.filter_append, filter_fresh s.pending _ _ hrids (Nat.le_succ _)]
    have f3 := findPending_last s3 s.pending s.nextRid s.nextRid _ hrids (le_refl _) p3b
    obtain ⟨s4, e4, c4, hr4, hb4, hd4, p4, r4, u4, cr4, m4⟩ :=
      resolve_consistent env s.nextRid dataA s3 _ c3 f3
    rw [p3b, filter_last s.pending s.nextRid s.nextRid _ hrids (le_refl _)] at p4
    refine ⟨s4, _, run_four env _ _ _ _ s s1 s2 s3 s4 e1 e2 e3 e4, hr4, hb4, rfl, hd4, p4,
      ?_, ?_⟩
    · apply m4
      rw [u2, u1] at cr3
      exact cr3
    · rw [u3, u2, u1] at cr4
      exact cr4

/-- C8 from the freshly linked state, with the fetch for the second change
completing first: the tree built for the first change is the one left. -/
theorem last_completion_wins_witness :
    Consistent sampleEnv World.init ∧
    ∃ s1 w, run sampleEnv
        [Action.watch (Connector.obj 1) Connector.undefined,
         Action.watch (Connector.obj 2) (Connector.obj 1),
         Action.resolve 1 rootNode, Action.resolve 0 rootNode] World.init = Except.ok s1 ∧
      byId s1.registry "tree" = some w ∧
      w.model.store = { data := rootNode, newValue := Connector.obj 1 } ∧
      s1.dom = [w.uid] :=
  ⟨⟨by decide, by decide, fun p hp => absurd hp (List.not_mem_nil p)⟩,
    match last_completion_wins sampleEnv World.init 1 2 Connector.undefined (Connector.obj 1)
        rootNode rootNode
        ⟨by decide, by decide, fun p hp => absurd hp (List.not_mem_nil p)⟩
        (by decide) (by decide)
        [Action.watch (Connector.obj 1) Connector.undefined,
         Action.watch (Connector.obj 2) (Connector.obj 1),
         Action.resolve 1 rootNode, Action.resolve 0 rootNode]
        { data := rootNode, newValue := Connector.obj 1 }
        (by simp [interleavings, World.init]) with
    | ⟨s1, w, h1, _, hb, hs, hd, _⟩ => ⟨s1, w, h1, hb, hs, hd⟩⟩

/-- C9 as stated fails: in the scenario the root fetch for the connector 9 is
issued although the tree of the connector 7 has not been destroyed, and once
that fetch succeeds the destruction comes after the fetch, not before it. -/
theorem second_change_fetches_first :
    traceOf (run sampleEnv scenario World.init) =
      [Event.get { path := "/cycle/app/secured/connector/7/tree/root", handleAs := "json" },
       Event.create 0 "tree", Event.placeAt 0, Event.startup 0, fetchNine] ∧
    happensBefore (Event.destroy 0) fetchNine
      (traceOf (run sampleEnv (scenario ++ [Action.resolve 1 rootNode]) World.init)) = false ∧
    happensBefore fetchNine (Event.destroy 0)
      (traceOf (run sampleEnv (scenario ++ [Action.resolve 1 rootNode]) World.init)) = true := by
  decide

/-- C9 amended: when the connector changes to another object while a widget is
registered under the element id, the root fetch for the new connector is issued
first, with the old widget still registered and placed; the old widget is
destroyed when that fetch succeeds, right before the new tree is created. -/
theorem second_change_fetch_then_destroy (env : Env) (s : World) (w : Widget) (r : Nat)
    (oldValue : Connector) (requestData : Payload)
    (hrids : ∀ p ∈ s.pending, p.rid < s.nextRid)
    (hreg : byId s.registry env.attrsId = some w) (hne : Connector.obj r ≠ oldValue) :
    ∃ s1 s2, step env (Action.watch (Connector.obj r) oldValue) s = Except.ok s1 ∧
      s1.trace = s.trace ++ [Event.get
        { path := env.APP_ROOT ++ "secured/connector/" ++ (env.connectorId r).toStr
            ++ "/tree/root",
          handleAs := "json" }] ∧
      byId s1.registry env.attrsId = some w ∧ s1.dom = s.dom ∧
      step env (Action.resolve s.nextRid requestData) s1 = Except.ok s2 ∧
      s2.trace = s1.trace ++ [Event.destroy w.uid, Event.registryRemove env.attrsId,
        Event.create s.nextUid env.attrsId, Event.placeAt s.nextUid,
        Event.startup s.nextUid] := by
  have e1 : step env (Action.watch (Connector.obj r) oldValue) s = Except.ok
      { s with
        pending := s.pending ++ [{ rid := s.nextRid, newValue := Connector.obj r }],
        nextRid := s.nextRid + 1,
        trace := s.trace ++ [Event.get { path := rootPath env (env.connectorId r),
                                         handleAs := "json" }] } := by
    simp only [step]
    exact watchListener_obj env r oldValue s hne
  have f1 := findPending_last _ s.pending s.nextRid s.nextRid (Connector.obj r) hrids
    (le_refl _) (rfl : ({ s with
        pending := s.pending ++ [{ rid := s.nextRid, newValue := Connector.obj r }],
        nextRid := s.nextRid + 1,
        trace := s.trace ++ [Event.get { path := rootPath env (env.connectorId r),
                                         handleAs := "json" }] } : World).pending = _)
  have e2 := onSuccess_some env (Connector.obj r) requestData
    (settle s.nextRid { s with
        pending := s.pending ++ [{ rid := s.nextRid, newValue := Connector.obj r }],
        nextRid := s.nextRid + 1,
        trace := s.trace ++ [Event.get { path := rootPath env (env.connectorId r),
                                         handleAs := "json" }] }) w hreg
  exact ⟨_, _, e1, rfl, hreg, rfl, by simp only [step, f1]; exact e2, rfl⟩

/-- C9 amended, on the scenario: the tree of the connector 7 is registered when
the connector 9 is bound. -/
theorem second_change_fetch_then_destroy_witness :
    ∃ s1 s2, step sampleEnv (Action.watch (Connector.obj 2) (Connector.obj 1))
        { sampleWorld with pending := [] } = Except.ok s1 ∧
      s1.trace = [fetchNine] ∧ s1.dom = [0] ∧
      step sampleEnv (Action.resolve 2 rootNode) s1 = Except.ok s2 ∧
      s2.trace = s1.trace ++ [Event.destroy 0, Event.registryRemove "tree",
        Event.create 1 "tree", Event.placeAt 1, Event.startup 1] :=
  match second_change_fetch_then_destroy sampleEnv { sampleWorld with pending := [] }
      { uid := 0, id := "tree",
        model := { store := { data := rootNode, newValue := Connector.obj 1 },
                   queryId := Prim.str "root" },
        openOnClick := true }
      2 (Connector.obj 1) rootNode
      (fun p hp => absurd hp (List.not_mem_nil p)) (by decide) (by decide) with
  | ⟨s1, s2, e1, t1, _, d1, e2, t2⟩ => ⟨s1, s2, e1, t1, d1, e2, t2⟩

end CycleTree

namespace Typeahead

/-- C6: the `updater` called with an item leaves `ngModel.$modelValue` equal to that
item and returns the item unchanged, for `"Foo"` as for every item. -/
theorem updater_writes_and_returns (item : String) (s : State) :
    (updater item s).1 = item ∧ (updater item s).2.modelValue = Prim.str item ∧
    (updater "Foo" s).1 = "Foo" ∧ (updater "Foo" s).2.modelValue = Prim.str "Foo" :=
  ⟨rfl, rfl, rfl, rfl⟩

/-- C7 at the failing input: the source the link function installs is the string
literal of two characters, with the entries `[` and `]`, not an empty list, and
it stays that string when the name-list request fails or never completes; a
successful request replaces it with the fetched list. -/
theorem link_source_is_string (modelValue : Prim) (data : List String) :
    (link modelValue).source = Source.str "[]" ∧
    (link modelValue).source.length = 2 ∧
    (link modelValue).source.entries = ["[", "]"] ∧
    (link modelValue).source ≠ Source.array [] ∧
    (react Input.failed (link modelValue)).source = Source.str "[]" ∧
    (react (Input.fetched data) (link modelValue)).source = Source.array data :=
  ⟨rfl, (by decide : (Source.str "[]").length = 2),
    (by decide : (Source.str "[]").entries = ["[", "]"]), by simp [link], rfl, rfl⟩

/-- C10 at the failing input: the `updater` performs the assignment while
evaluating the argument of `scope.$apply`, before `scope.$apply` is entered, and
`scope.$apply` then receives no function; passing the function instead would put
the assignment inside the cycle. -/
theorem updater_assigns_before_apply (item : String) (s : State) :
    (updater item s).2.trace
      = s.trace ++ [Effect.assign item s.inApply, Effect.applyEnter false, Effect.digest] ∧
    (updater "Foo" (link Prim.undefined)).2.trace
      = (link Prim.undefined).trace ++
        [Effect.assign "Foo" false, Effect.applyEnter false, Effect.digest] ∧
    (scopeApply (ApplyArg.fn (fun t => (read item t).2)) s).trace
      = s.trace ++ [Effect.applyEnter true, Effect.assign item true, Effect.digest] := by
  refine ⟨?_, ?_, ?_⟩ <;> simp [updater, read, scopeApply, ApplyArg.isFn, link]

end Typeahead
